import Mathlib

/-!
Verification of the conversion routing and dispatch layer of the any-file
browser-based file conversion utility.

The development shallowly embeds the TypeScript sources:
* `src/lib/types` (in `src/unnamed/part_000`): `FileFormat`, `CONVERSION_OPTIONS`;
* `src/lib/converters/index.ts`: `ConversionError`, `assertSupportedConversion`,
  `FORMAT_ALIASES`, `ensureFileMatchesFormat`, `convertFile`;
* `src/lib/converters/pdf-converter.ts`: `pdfToText`;
* `src/lib/converters/media-converter.ts`: `convertAudio`, `extractAudioFromVideo`,
  `convertVideo`, `getFFmpeg`;
* `src/lib/services/ocr-utils.ts`: `estimateThreshold`, `applyContrastAndThreshold`,
  `withRetry`;
* `src/lib/services/ocr-service.ts`: `postprocessText`.

Asynchronous, fallible TypeScript functions are embedded as pure functions
returning `Except`; the opaque strategy implementations (canvas work, network,
codec libraries) are abstracted as oracles supplied through an environment
record, and the dispatcher additionally returns the trace of strategies it
invoked, so that "before any strategy executes" is expressible as an empty
trace.  JavaScript floating point arithmetic is modelled with exact rationals.
-/

/-- The `FileFormat` string union from `src/lib/types`. -/
inductive FileFormat where
  | pdf | docx | xlsx | txt
  | jpg | jpeg | png | webp | gif
  | mp3 | wav | ogg | aac | flac | m4a
  | mp4 | webm | avi | mov | mkv | flv
deriving DecidableEq, Repr, Fintype

/-- The literal string carried by each `FileFormat` tag. -/
def FileFormat.str : FileFormat → String
  | .pdf => "pdf" | .docx => "docx" | .xlsx => "xlsx" | .txt => "txt"
  | .jpg => "jpg" | .jpeg => "jpeg" | .png => "png" | .webp => "webp" | .gif => "gif"
  | .mp3 => "mp3" | .wav => "wav" | .ogg => "ogg" | .aac => "aac" | .flac => "flac"
  | .m4a => "m4a" | .mp4 => "mp4" | .webm => "webm" | .avi => "avi" | .mov => "mov"
  | .mkv => "mkv" | .flv => "flv"

/-- `ConversionOption` from `src/lib/types` (`from`/`to` fields; `from` is a Lean
keyword, hence `fromFormat`/`toFormats`). -/
structure ConversionOption where
  fromFormat : FileFormat
  toFormats : List FileFormat
deriving DecidableEq, Repr

/-- `CONVERSION_OPTIONS` from `src/lib/types`, verbatim. -/
def CONVERSION_OPTIONS : List ConversionOption :=
  [ ⟨.pdf, [.docx, .txt, .jpg, .png]⟩,
    ⟨.docx, [.pdf, .txt]⟩,
    ⟨.xlsx, [.pdf]⟩,
    ⟨.txt, [.pdf, .docx]⟩,
    ⟨.jpg, [.png, .webp, .pdf, .txt]⟩,
    ⟨.jpeg, [.png, .webp, .pdf, .txt]⟩,
    ⟨.png, [.jpg, .webp, .pdf, .txt]⟩,
    ⟨.webp, [.jpg, .png, .pdf, .txt]⟩,
    ⟨.gif, [.png, .jpg, .webp]⟩,
    ⟨.mp3, [.wav, .ogg, .aac, .flac, .m4a]⟩,
    ⟨.wav, [.mp3, .ogg, .aac, .flac, .m4a]⟩,
    ⟨.ogg, [.mp3, .wav, .aac, .flac, .m4a]⟩,
    ⟨.aac, [.mp3, .wav, .ogg, .flac, .m4a]⟩,
    ⟨.flac, [.mp3, .wav, .ogg, .aac, .m4a]⟩,
    ⟨.m4a, [.mp3, .wav, .ogg, .aac, .flac]⟩,
    ⟨.mp4, [.webm, .avi, .mov, .mkv, .flv, .mp3, .wav, .aac, .m4a]⟩,
    ⟨.webm, [.mp4, .avi, .mov, .mkv, .mp3, .wav, .aac, .m4a]⟩,
    ⟨.avi, [.mp4, .webm, .mov, .mkv, .mp3, .wav, .aac, .m4a]⟩,
    ⟨.mov, [.mp4, .webm, .avi, .mkv, .mp3, .wav, .aac, .m4a]⟩,
    ⟨.mkv, [.mp4, .webm, .avi, .mov, .mp3, .wav, .aac, .m4a]⟩,
    ⟨.flv, [.mp4, .webm, .avi, .mov, .mp3, .wav, .aac, .m4a]⟩ ]

/-- `(from, to)` appears in the capability table: some entry has
`from = src` and `tgt` in its `to` list. -/
def SupportedPair (src tgt : FileFormat) : Prop :=
  ∃ o ∈ CONVERSION_OPTIONS, o.fromFormat = src ∧ tgt ∈ o.toFormats

instance : DecidablePred fun p : FileFormat × FileFormat => SupportedPair p.1 p.2 :=
  fun _ => List.decidableBEx _ _

instance (src tgt : FileFormat) : Decidable (SupportedPair src tgt) :=
  List.decidableBEx _ _

/-- `ConversionError` from `src/lib/converters/index.ts`.  In TypeScript the
`sourceFormat`/`targetFormat` fields are strings at runtime (the code casts a
raw extension with `extension as FileFormat`), so they are modelled as
`Option String`. -/
structure ConversionError where
  message : String
  sourceFormat : Option String := none
  targetFormat : Option String := none
deriving DecidableEq, Repr

/-- A value thrown inside the `try` block of `convertFile`: either an existing
`ConversionError` or a plain JavaScript `Error` carrying only a message. -/
inductive JsError where
  | conv (e : ConversionError)
  | plain (message : String)
deriving DecidableEq, Repr

/-- A browser `Blob`, reduced to the parts the dispatcher observes. -/
structure Blob where
  content : String := ""
  mime : String := ""
deriving DecidableEq, Repr

/-- A browser `File`: only the `name` matters to the dispatcher itself. -/
structure JsFile where
  name : String
deriving DecidableEq, Repr

instance {ε α : Type} [DecidableEq ε] [DecidableEq α] : DecidableEq (Except ε α) := fun x y =>
  match x, y with
  | .ok a, .ok b =>
    if h : a = b then .isTrue (by rw [h]) else .isFalse (fun hc => by cases hc; exact h rfl)
  | .error a, .error b =>
    if h : a = b then .isTrue (by rw [h]) else .isFalse (fun hc => by cases hc; exact h rfl)
  | .ok _, .error _ => .isFalse (fun hc => by cases hc)
  | .error _, .ok _ => .isFalse (fun hc => by cases hc)

/-- The error thrown by `assertSupportedConversion`. -/
def unsupportedError (src tgt : FileFormat) : ConversionError :=
  ⟨"Conversion from " ++ src.str ++ " to " ++ tgt.str ++ " is not supported",
    some src.str, some tgt.str⟩

/-- `assertSupportedConversion` from `src/lib/converters/index.ts`:
find the entry with `from === sourceFormat`; throw unless it exists and its
`to` list contains the target. -/
def assertSupportedConversion (src tgt : FileFormat) : Except ConversionError Unit :=
  match CONVERSION_OPTIONS.find? (fun o => o.fromFormat = src) with
  | some o => if tgt ∈ o.toFormats then .ok () else .error (unsupportedError src tgt)
  | none => .error (unsupportedError src tgt)

/-- `FORMAT_ALIASES` from `src/lib/converters/index.ts`. -/
def FORMAT_ALIASES : FileFormat → List String
  | .jpg => ["jpg", "jpeg"]
  | .jpeg => ["jpeg", "jpg"]
  | _ => []

/-- `file.name.split(".").pop()?.toLowerCase()`: the (lower-cased) segment of
the name after its last dot — the whole name when there is no dot, and the
empty string when the name is empty or ends with a dot. -/
def jsExtension (name : String) : String :=
  String.mk (((name.data.reverse.takeWhile (fun c => c ≠ '.')).reverse).map Char.toLower)

/-- The mismatch error thrown by `ensureFileMatchesFormat`; its
`targetFormat` field receives the raw extension string (`extension as FileFormat`). -/
def mismatchError (extension : String) (src : FileFormat) : ConversionError :=
  ⟨"File extension \"." ++ extension ++ "\" does not match declared source format \"" ++
      src.str ++ "\". Please select the correct file.",
    some src.str, some extension⟩

/-- `ensureFileMatchesFormat` from `src/lib/converters/index.ts`: skip the check
when the extension is empty, otherwise require the extension to be the declared
format or one of its aliases. -/
def ensureFileMatchesFormat (file : JsFile) (src : FileFormat) : Except ConversionError Unit :=
  let extension := jsExtension file.name
  if extension = "" then .ok ()
  else
    let allowedExtensions := src.str :: FORMAT_ALIASES src
    if extension ∈ allowedExtensions then .ok ()
    else .error (mismatchError extension src)

/-- The strategy routines `convertFile` can invoke (the branches of its
routing chain that call out to conversion code). -/
inductive Strategy where
  | docxToPdfS | docxToTextS | textToPdfS
  | pdfToImagesS | pdfToTextS | pdfToDocxS
  | imageToPdfS | imageToTextS | convertImageS
  | convertAudioS | extractAudioS | convertVideoS
deriving DecidableEq, Repr

/-- Oracle results for every strategy `convertFile` may invoke.  Each models
the outcome of the corresponding async call (success value or thrown error);
invoking a strategy is the only point at which the file's bytes are read. -/
structure StrategyEnv where
  docxToPdf : Except JsError Blob
  docxToText : Except JsError Blob
  textToPdf : Except JsError Blob
  pdfToImages : Except JsError (List Blob)
  pdfToText : Except JsError String
  pdfToDocx : Except JsError Blob
  imageToPdf : Except JsError Blob
  imageToText : Except JsError Blob
  convertImage : Except JsError Blob
  convertAudio : Except JsError Blob
  extractAudioFromVideo : Except JsError Blob
  convertVideo : Except JsError Blob

/-- The error thrown when `pdfToImages` returns no pages. -/
def renderError (src tgt : FileFormat) : ConversionError :=
  ⟨"Unable to render PDF pages. Please verify the document is valid and not password-protected.",
    some src.str, some tgt.str⟩

/-- The explicit PDF→XLSX not-yet-implemented error. -/
def pdfXlsxError (src tgt : FileFormat) : ConversionError :=
  ⟨"PDF to XLSX conversion is not yet implemented. Currently supported: PDF → TXT, PDF → DOCX, PDF → JPG/PNG",
    some src.str, some tgt.str⟩

/-- The fall-through not-yet-implemented error at the end of the routing chain. -/
def notImplementedError (src tgt : FileFormat) : ConversionError :=
  ⟨"Conversion from " ++ src.str ++ " to " ++ tgt.str ++ " is not yet implemented",
    some src.str, some tgt.str⟩

/-- The body of `convertFile`'s `try` block: the ordered routing chain from
`src/lib/converters/index.ts`, together with the trace of invoked strategies. -/
def routeConversion (env : StrategyEnv) (src tgt : FileFormat) :
    Except JsError Blob × List Strategy :=
  if src = .docx ∧ tgt = .pdf then (env.docxToPdf, [.docxToPdfS])
  else if src = .docx ∧ tgt = .txt then (env.docxToText, [.docxToTextS])
  else if src = .txt ∧ tgt = .pdf then (env.textToPdf, [.textToPdfS])
  else if src = .pdf ∧ (tgt = .jpg ∨ tgt = .png) then
    match env.pdfToImages with
    | .error e => (.error e, [.pdfToImagesS])
    | .ok [] => (.error (.conv (renderError src tgt)), [.pdfToImagesS])
    | .ok (b :: _) => (.ok b, [.pdfToImagesS])
  else if src = .pdf ∧ tgt = .txt then
    match env.pdfToText with
    | .error e => (.error e, [.pdfToTextS])
    | .ok text => (.ok ⟨text, "text/plain"⟩, [.pdfToTextS])
  else if src = .pdf ∧ tgt = .docx then (env.pdfToDocx, [.pdfToDocxS])
  else if src = .pdf ∧ tgt = .xlsx then (.error (.conv (pdfXlsxError src tgt)), [])
  else if (src = .jpg ∨ src = .jpeg ∨ src = .png ∨ src = .webp ∨ src = .gif) ∧ tgt = .pdf then
    (env.imageToPdf, [.imageToPdfS])
  else if (src = .jpg ∨ src = .jpeg ∨ src = .png ∨ src = .webp) ∧ tgt = .txt then
    (env.imageToText, [.imageToTextS])
  else if (src = .jpg ∨ src = .jpeg ∨ src = .png ∨ src = .webp ∨ src = .gif) ∧
      (tgt = .jpg ∨ tgt = .jpeg ∨ tgt = .png ∨ tgt = .webp ∨ tgt = .gif) then
    (env.convertImage, [.convertImageS])
  else if (src = .mp3 ∨ src = .wav ∨ src = .ogg ∨ src = .aac ∨ src = .flac ∨ src = .m4a) ∧
      (tgt = .mp3 ∨ tgt = .wav ∨ tgt = .ogg ∨ tgt = .aac ∨ tgt = .flac ∨ tgt = .m4a) then
    (env.convertAudio, [.convertAudioS])
  else if (src = .mp4 ∨ src = .webm ∨ src = .avi ∨ src = .mov ∨ src = .mkv ∨ src = .flv) ∧
      (tgt = .mp3 ∨ tgt = .wav ∨ tgt = .ogg ∨ tgt = .aac ∨ tgt = .flac ∨ tgt = .m4a) then
    (env.extractAudioFromVideo, [.extractAudioS])
  else if (src = .mp4 ∨ src = .webm ∨ src = .avi ∨ src = .mov ∨ src = .mkv ∨ src = .flv) ∧
      (tgt = .mp4 ∨ tgt = .webm ∨ tgt = .avi ∨ tgt = .mov ∨ tgt = .mkv ∨ tgt = .flv) then
    (env.convertVideo, [.convertVideoS])
  else (.error (.conv (notImplementedError src tgt)), [])

/-- The message prefix of the `catch`-block wrapper in `convertFile`
(`file.name || "file"` substitutes `"file"` for an empty name). -/
def wrapMessageLead (file : JsFile) (src tgt : FileFormat) : String :=
  "Failed to convert " ++ (if file.name = "" then "file" else file.name) ++
    " from " ++ src.str ++ " to " ++ tgt.str ++ ": "

/-- The `catch` block of `convertFile`: a `ConversionError` is re-thrown
unchanged, anything else is wrapped into one carrying the format pair and the
original message. -/
def wrapRouteResult (file : JsFile) (src tgt : FileFormat) :
    Except JsError Blob → Except ConversionError Blob
  | .ok b => .ok b
  | .error (.conv e) => .error e
  | .error (.plain msg) =>
    .error ⟨wrapMessageLead file src tgt ++ msg, some src.str, some tgt.str⟩

/-- `convertFile` from `src/lib/converters/index.ts`: the support check and the
extension check run outside the `try`; then the routing chain runs inside it,
with its outcome wrapped by the `catch`.  The second component is the trace of
strategies that were invoked. -/
def convertFile (env : StrategyEnv) (file : JsFile) (src tgt : FileFormat) :
    Except ConversionError Blob × List Strategy :=
  match assertSupportedConversion src tgt with
  | .error e => (.error e, [])
  | .ok _ =>
    match ensureFileMatchesFormat file src with
    | .error e => (.error e, [])
    | .ok _ =>
      (wrapRouteResult file src tgt (routeConversion env src tgt).1,
        (routeConversion env src tgt).2)

/-- A concrete environment where every strategy succeeds, used to instantiate
universally quantified theorems at specific inputs. -/
def happyEnv : StrategyEnv :=
  { docxToPdf := .ok ⟨"docxpdf", "application/pdf"⟩
    docxToText := .ok ⟨"docxtxt", "text/plain"⟩
    textToPdf := .ok ⟨"txtpdf", "application/pdf"⟩
    pdfToImages := .ok [⟨"page1", "image/png"⟩]
    pdfToText := .ok "pdf text"
    pdfToDocx := .ok ⟨"pdfdocx", "application/docx"⟩
    imageToPdf := .ok ⟨"imgpdf", "application/pdf"⟩
    imageToText := .ok ⟨"ocr", "text/plain"⟩
    convertImage := .ok ⟨"img", "image/png"⟩
    convertAudio := .ok ⟨"audio", "audio/wav"⟩
    extractAudioFromVideo := .ok ⟨"audiofromvideo", "audio/wav"⟩
    convertVideo := .ok ⟨"video", "video/mp4"⟩ }

/-- Bridge between the capability table and `assertSupportedConversion`:
the assertion succeeds exactly on supported pairs, and fails with the
unsupported-conversion error otherwise.  Checked over the whole finite
format space. -/
theorem assertSupportedConversion_eq_ok_iff (src tgt : FileFormat) :
    (assertSupportedConversion src tgt = .ok () ↔ SupportedPair src tgt) ∧
    (¬ SupportedPair src tgt →
      assertSupportedConversion src tgt = .error (unsupportedError src tgt)) := by
  revert src tgt
  decide

/-- An environment in which every strategy throws a plain (non-`ConversionError`)
JavaScript error with message `"boom"`. -/
def plainErrorEnv : StrategyEnv :=
  { docxToPdf := .error (.plain "boom")
    docxToText := .error (.plain "boom")
    textToPdf := .error (.plain "boom")
    pdfToImages := .error (.plain "boom")
    pdfToText := .error (.plain "boom")
    pdfToDocx := .error (.plain "boom")
    imageToPdf := .error (.plain "boom")
    imageToText := .error (.plain "boom")
    convertImage := .error (.plain "boom")
    convertAudio := .error (.plain "boom")
    extractAudioFromVideo := .error (.plain "boom")
    convertVideo := .error (.plain "boom") }

/-- C1: for a `(sourceFormat, targetFormat)` pair such that no entry of
`CONVERSION_OPTIONS` has `from = sourceFormat` with `targetFormat` in its
`to` list, `convertFile` returns the unsupported-conversion `ConversionError`
carrying that format pair, with an empty strategy trace — so no strategy ran
and the file's bytes (read only inside strategies) were never touched. -/
theorem convertFile_unsupported_rejected (env : StrategyEnv) (file : JsFile)
    (src tgt : FileFormat)
    (h : ∀ o ∈ CONVERSION_OPTIONS, o.fromFormat = src → tgt ∉ o.toFormats) :
    convertFile env file src tgt = (.error (unsupportedError src tgt), []) := by
  have hns : ¬ SupportedPair src tgt := by
    rintro ⟨o, ho, hfrom, hto⟩
    exact h o ho hfrom hto
  have herr := (assertSupportedConversion_eq_ok_iff src tgt).2 hns
  simp [convertFile, herr]

/-- Witness for C1 at the concrete pair gif → txt (absent from the table). -/
theorem convertFile_unsupported_rejected_witness :
    convertFile happyEnv ⟨"frame.gif"⟩ .gif .txt =
      (.error (unsupportedError .gif .txt), []) :=
  convertFile_unsupported_rejected happyEnv ⟨"frame.gif"⟩ .gif .txt (by decide)

/-- C2: for a supported pair, when the file's name yields a non-empty
(lower-cased) extension that is neither the declared source format nor one of
its aliases, `convertFile` returns the descriptive mismatch `ConversionError`
with an empty strategy trace, i.e. before any strategy executes. -/
theorem convertFile_extension_mismatch_rejected (env : StrategyEnv) (file : JsFile)
    (src tgt : FileFormat)
    (hsup : SupportedPair src tgt)
    (hext : jsExtension file.name ≠ "")
    (hmm : jsExtension file.name ∉ src.str :: FORMAT_ALIASES src) :
    convertFile env file src tgt =
      (.error (mismatchError (jsExtension file.name) src), []) := by
  have hok := (assertSupportedConversion_eq_ok_iff src tgt).1.mpr hsup
  have hens : ensureFileMatchesFormat file src =
      .error (mismatchError (jsExtension file.name) src) := by
    simp [ensureFileMatchesFormat, hext, hmm]
  simp [convertFile, hok, hens]

/-- Witness for C2: a file named `photo.png` declared as jpg (a supported
source for target pdf) is rejected with the mismatch error. -/
theorem convertFile_extension_mismatch_rejected_witness :
    convertFile happyEnv ⟨"photo.png"⟩ .jpg .pdf =
      (.error (mismatchError "png" .jpg), []) := by
  have h := convertFile_extension_mismatch_rejected happyEnv ⟨"photo.png"⟩ .jpg .pdf
    (by decide) (by decide) (by decide)
  simpa using h

/-- C3: when the routing chain raises an error, `convertFile` re-raises a
`ConversionError` unchanged, and wraps any other error into a
`ConversionError` whose message is the wrapper lead followed by the original
message (so it contains the original message) and which carries the format
pair. -/
theorem convertFile_error_wrapping (env : StrategyEnv) (file : JsFile)
    (src tgt : FileFormat) (e : JsError)
    (hsup : SupportedPair src tgt)
    (hmatch : ensureFileMatchesFormat file src = .ok ())
    (herr : (routeConversion env src tgt).1 = .error e) :
    (∀ ce, e = .conv ce →
      convertFile env file src tgt = (.error ce, (routeConversion env src tgt).2)) ∧
    (∀ msg, e = .plain msg →
      convertFile env file src tgt =
        (.error ⟨wrapMessageLead file src tgt ++ msg, some src.str, some tgt.str⟩,
          (routeConversion env src tgt).2)) := by
  have hok := (assertSupportedConversion_eq_ok_iff src tgt).1.mpr hsup
  constructor
  · rintro ce rfl
    simp [convertFile, hok, hmatch, wrapRouteResult, herr]
  · rintro msg rfl
    simp [convertFile, hok, hmatch, wrapRouteResult, herr]

/-- Witness for C3: a png → jpg conversion whose strategy throws a plain
error with message `"boom"` surfaces as a wrapped `ConversionError` whose
message ends with `"boom"` and which carries the format pair. -/
theorem convertFile_error_wrapping_witness :
    convertFile plainErrorEnv ⟨"a.png"⟩ .png .jpg =
      (.error ⟨wrapMessageLead ⟨"a.png"⟩ .png .jpg ++ "boom",
        some FileFormat.png.str, some FileFormat.jpg.str⟩, [.convertImageS]) := by
  have h := (convertFile_error_wrapping plainErrorEnv ⟨"a.png"⟩ .png .jpg (.plain "boom")
    (by decide) (by decide) (by decide)).2 "boom" rfl
  simpa using h

/-- C10: for a file whose name yields no extension (empty name, or a name
ending in a dot so that the segment after the last dot is empty), the
declared-format check is skipped for every declared format, and `convertFile`
proceeds straight to routing for every supported pair instead of raising a
mismatch error. -/
theorem convertFile_empty_extension_skips_check (file : JsFile)
    (h : file.name = "" ∨ file.name.data.getLast? = some '.') :
    (∀ src, ensureFileMatchesFormat file src = .ok ()) ∧
    (∀ env src tgt, SupportedPair src tgt →
      convertFile env file src tgt =
        (wrapRouteResult file src tgt (routeConversion env src tgt).1,
          (routeConversion env src tgt).2)) := by
  have hext : jsExtension file.name = "" := by
    rcases h with h | h
    · rw [h]; rfl
    · unfold jsExtension
      rcases hrev : file.name.data.reverse with _ | ⟨c, t⟩
      · simp
      · have hc : c = '.' := by
          have := file.name.data.head?_reverse
          rw [hrev] at this
          simp [h] at this
          exact this
        subst hc
        simp
  have hens : ∀ src, ensureFileMatchesFormat file src = .ok () := by
    intro src
    simp [ensureFileMatchesFormat, hext]
  refine ⟨hens, ?_⟩
  intro env src tgt hsup
  have hok := (assertSupportedConversion_eq_ok_iff src tgt).1.mpr hsup
  simp [convertFile, hok, hens src]

/-- Witness for C10: a file named `"archive."` declared as pdf routes to the
pdf → txt strategy without any mismatch error. -/
theorem convertFile_empty_extension_skips_check_witness :
    ensureFileMatchesFormat ⟨"archive."⟩ .pdf = .ok () ∧
    convertFile happyEnv ⟨"archive."⟩ .pdf .txt =
      (wrapRouteResult ⟨"archive."⟩ .pdf .txt (routeConversion happyEnv .pdf .txt).1,
        (routeConversion happyEnv .pdf .txt).2) := by
  have h := convertFile_empty_extension_skips_check ⟨"archive."⟩ (by right; decide)
  exact ⟨h.1 .pdf, h.2 happyEnv .pdf .txt (by decide)⟩

/-- `RetryOptions` from `src/lib/services/ocr-utils.ts`. -/
structure RetryOptions where
  retries : Nat
  delayMs : Nat
deriving DecidableEq, Repr

/-- The retry loop of `withRetry` from `src/lib/services/ocr-utils.ts`.
`op k` is the outcome of the `k`-th invocation of the wrapped operation
(0-indexed); errors are JavaScript `Error`s modelled by their message, so the
final `throw lastError instanceof Error ? lastError : ...` always takes the
first branch.  `remaining` is `options.retries - attempt`, the number of
further attempts the loop may still make; the result records the value or
last error, the total number of invocations, and the list of waits performed
between attempts (`delayMs * (attempt + 1)`; the optional `onRetry` callback
is effect-only and not modelled). -/
def withRetryGo {A : Type} (op : Nat → Except String A) (delayMs : Nat) :
    Nat → Nat → Except String A × Nat × List Nat
  | attempt, 0 =>
    (match op attempt with
      | .ok a => .ok a
      | .error e => .error e, attempt + 1, [])
  | attempt, remaining + 1 =>
    match op attempt with
    | .ok a => (.ok a, attempt + 1, [])
    | .error _ =>
      let r := withRetryGo op delayMs (attempt + 1) remaining
      (r.1, r.2.1, delayMs * (attempt + 1) :: r.2.2)

/-- `withRetry` from `src/lib/services/ocr-utils.ts`: run the loop starting at
attempt 0, with `options.retries` further attempts allowed. -/
def withRetry {A : Type} (op : Nat → Except String A) (options : RetryOptions) :
    Except String A × Nat × List Nat :=
  withRetryGo op options.delayMs 0 options.retries

theorem withRetryGo_count_delays {A : Type} (op : Nat → Except String A)
    (delayMs : Nat) :
    ∀ remaining attempt,
      attempt + 1 ≤ (withRetryGo op delayMs attempt remaining).2.1 ∧
      (withRetryGo op delayMs attempt remaining).2.1 ≤ attempt + remaining + 1 ∧
      (withRetryGo op delayMs attempt remaining).2.2 =
        (List.range ((withRetryGo op delayMs attempt remaining).2.1 - attempt - 1)).map
          (fun i => delayMs * (attempt + i + 1)) := by
  intro remaining
  induction remaining with
  | zero =>
    intro attempt
    rcases h : op attempt with e | a <;> simp [withRetryGo, h]
  | succ remaining ih =>
    intro attempt
    rcases h : op attempt with e | a
    · obtain ⟨h1, h2, h3⟩ := ih (attempt + 1)
      refine ⟨?_, ?_, ?_⟩
      · simp only [withRetryGo, h]
        omega
      · simp only [withRetryGo, h]
        omega
      · simp only [withRetryGo, h]
        have hn : (withRetryGo op delayMs (attempt + 1) remaining).2.1 - attempt - 1 =
            ((withRetryGo op delayMs (attempt + 1) remaining).2.1 - (attempt + 1) - 1) + 1 := by
          omega
        rw [hn, List.range_succ_eq_map, List.map_cons, List.map_map]
        refine congrArg₂ List.cons ?_ ?_
        · norm_num
        · rw [h3]
          apply List.map_congr_left
          intro i _
          simp only [Function.comp_apply, Nat.succ_eq_add_one]
          ring
    · simp [withRetryGo, h]

/-- C7: `withRetry` invokes the operation at most `retries + 1` times and the
waits between attempts are `delayMs * attemptNumber` for attempt numbers
1, 2, …; an operation failing once then succeeding runs exactly twice under
`{retries := 2, delayMs := 1}` and returns the success value, and an operation
that always fails runs exactly twice under `{retries := 1, delayMs := 1}` and
re-raises the error of the last attempt. -/
theorem withRetry_bounded_linear_backoff :
    (∀ (A : Type) (op : Nat → Except String A) (retries delayMs : Nat),
      (withRetry op ⟨retries, delayMs⟩).2.1 ≤ retries + 1 ∧
      (withRetry op ⟨retries, delayMs⟩).2.2 =
        (List.range ((withRetry op ⟨retries, delayMs⟩).2.1 - 1)).map
          (fun i => delayMs * (i + 1))) ∧
    withRetry (fun k => if k = 0 then .error "transient" else .ok 42) ⟨2, 1⟩ =
      (.ok 42, 2, [1]) ∧
    withRetry (fun _ => (.error "boom" : Except String Nat)) ⟨1, 1⟩ =
      (.error "boom", 2, [1]) := by
  refine ⟨?_, by decide, by decide⟩
  intro A op retries delayMs
  obtain ⟨h1, h2, h3⟩ := withRetryGo_count_delays op delayMs retries 0
  refine ⟨by simpa [withRetry] using h2, ?_⟩
  simp only [withRetry]
  simpa using h3

/-- A page of a PDF document, as `pdfToText` sees it: the list of the `str`
fields of the page's text-content items. -/
abbrev PdfPage := List String

/-- `textContent.items.map((item) => item.str).join(" ")` in `pdfToText`. -/
def pageText (page : PdfPage) : String := String.intercalate " " page

/-- `pdfToText` from `src/lib/converters/pdf-converter.ts`: starting from the
empty string, append `pageText + "\n\n"` for every page in order. -/
def pdfToText (pages : List PdfPage) : String :=
  pages.foldl (fun fullText page => fullText ++ pageText page ++ "\n\n") ""

/-- The spec-side reading of the amended C4: every page's text in order, each
page's text followed by one blank-line separator (`"\n\n"`), including after
the last page. -/
def pdfToTextSpec : List PdfPage → String
  | [] => ""
  | page :: rest => pageText page ++ "\n\n" ++ pdfToTextSpec rest

/-- `n` copies of the blank-line separator. -/
def blankSeps : Nat → String
  | 0 => ""
  | n + 1 => "\n\n" ++ blankSeps n

theorem pdfToText_foldl_acc (pages : List PdfPage) :
    ∀ acc : String,
      pages.foldl (fun fullText page => fullText ++ pageText page ++ "\n\n") acc =
        acc ++ pdfToTextSpec pages := by
  induction pages with
  | nil => intro acc; simp [pdfToTextSpec]
  | cons page rest ih =>
    intro acc
    simp only [List.foldl_cons]
    rw [ih]
    simp [pdfToTextSpec, String.append_assoc]

/-- Counterexample to C4 as stated: a one-page PDF with no text layer (its
single page has no text items, so every page's text content is empty) does not
yield the empty string — `pdfToText` returns `"\n\n"`. -/
theorem pdfToText_empty_page_not_empty_string :
    (∀ p ∈ [([] : PdfPage)], pageText p = "") ∧ pdfToText [[]] ≠ "" := by
  constructor
  · intro p hp
    simp at hp
    subst hp
    rfl
  · decide

/-- C4 (amended): `pdfToText` returns every page's text (its items joined by
single spaces) in page order, each page's text followed by one blank-line
separator — including a trailing separator after the last page — and on a PDF
whose pages all have empty text content it returns one `"\n\n"` per page
rather than the empty string. -/
theorem pdfToText_join_with_trailing_separators :
    (∀ pages : List PdfPage, pdfToText pages = pdfToTextSpec pages) ∧
    (∀ pages : List PdfPage, (∀ p ∈ pages, pageText p = "") →
      pdfToText pages = blankSeps pages.length) := by
  have hmain : ∀ pages : List PdfPage, pdfToText pages = pdfToTextSpec pages := by
    intro pages
    have := pdfToText_foldl_acc pages ""
    simpa [pdfToText] using this
  refine ⟨hmain, ?_⟩
  intro pages hempty
  rw [hmain]
  induction pages with
  | nil => rfl
  | cons page rest ih =>
    have hpage : pageText page = "" := hempty page (by simp)
    have hrest : ∀ p ∈ rest, pageText p = "" := fun p hp => hempty p (by simp [hp])
    simp [pdfToTextSpec, blankSeps, hpage, ih hrest]

/-- Witness for C4 (amended): a three-page PDF where every page has empty text
content yields exactly three blank-line separators. -/
theorem pdfToText_join_with_trailing_separators_witness :
    pdfToText [[], [], []] = blankSeps 3 :=
  pdfToText_join_with_trailing_separators.2 [[], [], []]
    (by intro p hp; simp at hp; subst hp; rfl)

/-- One RGBA pixel.  The `Uint8ClampedArray` handled by
`src/lib/services/ocr-utils.ts` is a flat sequence of `r,g,b,a` quadruples
(the loops step through it four entries at a time), modelled as a list of
pixels with channel values in 0..255.  JavaScript float arithmetic on the
channel values is modelled with exact rationals. -/
structure Pixel where
  r : Nat
  g : Nat
  b : Nat
  a : Nat
deriving DecidableEq, Repr

/-- `GRAYSCALE_WEIGHTS` luminance `0.299*R + 0.587*G + 0.114*B`. -/
def luminance (p : Pixel) : ℚ := (299 * p.r + 587 * p.g + 114 * p.b : ℚ) / 1000

/-- The accumulation loop of `estimateThreshold`: running luminance sum and
pixel count. -/
def estimateThresholdGo : List Pixel → ℚ → Nat → ℚ × Nat
  | [], sum, count => (sum, count)
  | p :: rest, sum, count => estimateThresholdGo rest (sum + luminance p) (count + 1)

/-- `estimateThreshold` from `src/lib/services/ocr-utils.ts`: 128 on an empty
buffer (both the early return on `data.length === 0` and the `count === 0`
guard), otherwise the mean luminance. -/
def estimateThreshold (data : List Pixel) : ℚ :=
  if data.length = 0 then 128
  else if (estimateThresholdGo data 0 0).2 = 0 then 128
  else (estimateThresholdGo data 0 0).1 / ((estimateThresholdGo data 0 0).2 : ℚ)

/-- `clampChannel` from `src/lib/services/ocr-utils.ts`. -/
def clampChannel (value : ℚ) : ℚ := min 255 (max 0 value)

/-- The contrast factor `(259 * (contrast + 255)) / (255 * (259 - contrast))`. -/
def contrastFactor (contrast : ℚ) : ℚ :=
  (259 * (contrast + 255)) / (255 * (259 - contrast))

/-- One contrast-stretched channel: `clampChannel(factor * (v - 128) + 128)`. -/
def contrastChannel (factor : ℚ) (v : Nat) : ℚ :=
  clampChannel (factor * ((v : ℚ) - 128) + 128)

/-- The grayscale value of a pixel after the contrast stretch. -/
def contrastedGray (factor : ℚ) (p : Pixel) : ℚ :=
  (299 * contrastChannel factor p.r + 587 * contrastChannel factor p.g +
      114 * contrastChannel factor p.b) / 1000

/-- The per-pixel loop of `applyContrastAndThreshold`: contrast-stretch each
channel, binarize the resulting gray against the threshold, copy the alpha. -/
def applyCTGo (factor threshold : ℚ) : List Pixel → List Pixel
  | [] => []
  | p :: rest =>
    let gray := contrastedGray factor p
    let value : Nat := if threshold ≤ gray then 255 else 0
    ⟨value, value, value, p.a⟩ :: applyCTGo factor threshold rest

/-- `applyContrastAndThreshold` from `src/lib/services/ocr-utils.ts`, with its
default arguments `contrast = 1.2` and `threshold = estimateThreshold(data)`. -/
def applyContrastAndThreshold (data : List Pixel) (contrast : ℚ := 6 / 5)
    (threshold : ℚ := estimateThreshold data) : List Pixel :=
  applyCTGo (contrastFactor contrast) threshold data

theorem estimateThresholdGo_sum_count (data : List Pixel) :
    ∀ (s : ℚ) (c : Nat),
      estimateThresholdGo data s c = (s + (data.map luminance).sum, c + data.length) := by
  induction data with
  | nil => intro s c; simp [estimateThresholdGo]
  | cons p rest ih =>
    intro s c
    rw [estimateThresholdGo, ih]
    refine congrArg₂ Prod.mk ?_ ?_
    · simp
      ring
    · simp
      omega

theorem estimateThreshold_eq_mean (data : List Pixel) (hne : data ≠ []) :
    estimateThreshold data = (data.map luminance).sum / data.length := by
  have hlen : data.length ≠ 0 := by simpa using hne
  rw [estimateThreshold, if_neg hlen, estimateThresholdGo_sum_count data 0 0]
  simp [hlen]

theorem applyCT_eq_map_binarize (data : List Pixel) (contrast threshold : ℚ) :
    applyContrastAndThreshold data contrast threshold =
      data.map (fun p =>
        if threshold ≤ contrastedGray (contrastFactor contrast) p then
          (⟨255, 255, 255, p.a⟩ : Pixel)
        else ⟨0, 0, 0, p.a⟩) := by
  rw [applyContrastAndThreshold]
  induction data with
  | nil => rfl
  | cons p rest ih =>
    simp only [applyCTGo, ih, List.map_cons]
    split_ifs <;> rfl

/-- C9: `estimateThreshold` returns exactly 128 on an empty pixel buffer and
the mean `0.299R + 0.587G + 0.114B` luminance otherwise;
`applyContrastAndThreshold` maps each pixel to full white `(255,255,255)` when
its contrast-adjusted luminance is ≥ the threshold and to full black
`(0,0,0)` otherwise, preserving the alpha channel; and on a two-pixel buffer
of one pure black and one pure near-white pixel (with the computed threshold
and default contrast 1.2) the dark pixel becomes black and the light pixel
becomes white. -/
theorem estimateThreshold_applyContrastAndThreshold_binarize :
    estimateThreshold [] = 128 ∧
    (∀ data : List Pixel, data ≠ [] →
      estimateThreshold data = (data.map luminance).sum / data.length) ∧
    (∀ (data : List Pixel) (contrast threshold : ℚ),
      applyContrastAndThreshold data contrast threshold =
        data.map (fun p =>
          if threshold ≤ contrastedGray (contrastFactor contrast) p then
            (⟨255, 255, 255, p.a⟩ : Pixel)
          else ⟨0, 0, 0, p.a⟩)) ∧
    applyContrastAndThreshold [⟨0, 0, 0, 255⟩, ⟨250, 250, 250, 17⟩] =
      [⟨0, 0, 0, 255⟩, ⟨255, 255, 255, 17⟩] := by
  refine ⟨rfl, estimateThreshold_eq_mean, applyCT_eq_map_binarize, ?_⟩
  have ht : estimateThreshold [⟨0, 0, 0, 255⟩, ⟨250, 250, 250, 17⟩] = 125 := by
    rw [estimateThreshold_eq_mean _ (by simp)]
    simp [luminance]
    norm_num
  show applyContrastAndThreshold [⟨0, 0, 0, 255⟩, ⟨250, 250, 250, 17⟩] (6 / 5)
      (estimateThreshold [⟨0, 0, 0, 255⟩, ⟨250, 250, 250, 17⟩]) = _
  rw [applyCT_eq_map_binarize, ht]
  have hblack : ¬ ((125 : ℚ) ≤ contrastedGray (contrastFactor (6 / 5)) ⟨0, 0, 0, 255⟩) := by
    rw [contrastedGray, contrastChannel, clampChannel, contrastFactor]
    norm_num
  have hwhite : (125 : ℚ) ≤ contrastedGray (contrastFactor (6 / 5)) ⟨250, 250, 250, 17⟩ := by
    rw [contrastedGray, contrastChannel, clampChannel, contrastFactor]
    norm_num [min_def, max_def]
  simp [hblack, hwhite]

/-- Witness for C9 at a concrete one-pixel buffer. -/
theorem estimateThreshold_applyContrastAndThreshold_binarize_witness :
    ([(⟨10, 20, 30, 40⟩ : Pixel)] ≠ []) ∧
    estimateThreshold [⟨10, 20, 30, 40⟩] =
      (([(⟨10, 20, 30, 40⟩ : Pixel)]).map luminance).sum / 1 ∧
    applyContrastAndThreshold [⟨10, 20, 30, 40⟩] 1 100 =
      [⟨10, 20, 30, 40⟩].map (fun p =>
        if (100 : ℚ) ≤ contrastedGray (contrastFactor 1) p then (⟨255, 255, 255, p.a⟩ : Pixel)
        else ⟨0, 0, 0, p.a⟩) := by
  refine ⟨by simp, ?_, ?_⟩
  · have h := estimateThreshold_applyContrastAndThreshold_binarize.2.1
      [⟨10, 20, 30, 40⟩] (by simp)
    simpa using h
  · exact estimateThreshold_applyContrastAndThreshold_binarize.2.2.1
      [⟨10, 20, 30, 40⟩] 1 100

/-- Horizontal whitespace, the regex class `[ \t]` of step 1 of
`postprocessText` in `src/lib/services/ocr-service.ts`. -/
def isHoriz (c : Char) : Bool := c == ' ' || c == '\t'

/-- `text.replace(/[ \t]+/g, " ")`, processed left to right; the flag records
whether the previous character belonged to a horizontal-whitespace run (in
which case further run members are dropped rather than emitting another
space). -/
def collapseHorizGo : Bool → List Char → List Char
  | _, [] => []
  | prevWs, c :: cs =>
    if isHoriz c then
      if prevWs then collapseHorizGo true cs else ' ' :: collapseHorizGo true cs
    else c :: collapseHorizGo false cs

/-- Step 1 of `postprocessText`: collapse each maximal run of spaces/tabs to a
single space. -/
def collapseHoriz (cs : List Char) : List Char := collapseHorizGo false cs

/-- The regex class `\w` (JavaScript without the unicode flag):
ASCII letters, digits and underscore. -/
def isWordChar (c : Char) : Bool := c.isAlpha || c.isDigit || c == '_'

/-- Emit the pending token accumulator (held in reverse) through `f`. -/
def emitToken (f : List Char → List Char) (acc : List Char) : List Char :=
  if acc.isEmpty then [] else f acc.reverse

/-- `text.replace(/\b\w+\b/g, f)`: every maximal run of word characters is
passed through `f`; all other characters are copied. -/
def mapTokensGo (f : List Char → List Char) : List Char → List Char → List Char
  | acc, [] => emitToken f acc
  | acc, c :: cs =>
    if isWordChar c then mapTokensGo f (c :: acc) cs
    else emitToken f acc ++ c :: mapTokensGo f [] cs

/-- Step 2's token traversal of `postprocessText`. -/
def mapTokens (f : List Char → List Char) (cs : List Char) : List Char :=
  mapTokensGo f [] cs

/-- The `commonErrors` table `0→O, 1→l, 5→S, 8→B`, in object-entry order. -/
def substPairs : List (Char × Char) := [('0', 'O'), ('1', 'l'), ('5', 'S'), ('8', 'B')]

/-- One iteration of the correction loop on a token: if the token contains the
wrong character and currently contains an ASCII letter, replace every
occurrence (`new RegExp(wrong, "g")`). -/
def fixWordStep (t : List Char) (p : Char × Char) : List Char :=
  if t.contains p.1 && t.any (fun c => c.isAlpha) then
    t.map (fun c => if c = p.1 then p.2 else c)
  else t

/-- The per-token correction function of step 2 of `postprocessText`. -/
def fixWord (tok : List Char) : List Char := substPairs.foldl fixWordStep tok

/-- The single character substitution `0→O, 1→l, 5→S, 8→B` (identity
elsewhere), used to state what `fixWord` does to letter-bearing tokens. -/
def substOCRChar (c : Char) : Char :=
  if c = '0' then 'O'
  else if c = '1' then 'l'
  else if c = '5' then 'S'
  else if c = '8' then 'B'
  else c

/-- The spec-side reading of step 2: apply the digit→letter substitutions in
tokens containing at least one letter, leave other tokens (in particular
all-digit tokens) unchanged. -/
def fixWordSpec (tok : List Char) : List Char :=
  if tok.any (fun c => c.isAlpha) then tok.map substOCRChar else tok

/-- The replacement for one maximal run of `n` newlines under
`replace(/\n{3,}/g, "\n\n")`: runs of three or more collapse to exactly two. -/
def emitNLRun (n : Nat) : List Char :=
  if 3 ≤ n then ['\n', '\n'] else List.replicate n '\n'

/-- Step 3 of `postprocessText`, processed left to right; `run` counts the
newlines of the current run seen so far. -/
def collapseNLGo : Nat → List Char → List Char
  | run, [] => emitNLRun run
  | run, c :: cs =>
    if c = '\n' then collapseNLGo (run + 1) cs
    else emitNLRun run ++ c :: collapseNLGo 0 cs

/-- Step 3 of `postprocessText`: collapse 3+ consecutive line breaks to 2. -/
def collapseNL (cs : List Char) : List Char := collapseNLGo 0 cs

/-- `text.split("\n")` (JavaScript semantics: `"" ↦ [""]`, a trailing newline
yields a trailing empty segment). -/
def splitLines : List Char → List (List Char)
  | [] => [[]]
  | c :: cs =>
    match splitLines cs with
    | [] => [[]]
    | l :: ls => if c = '\n' then [] :: l :: ls else (c :: l) :: ls

/-- `lines.join("\n")`. -/
def joinLines : List (List Char) → List Char
  | [] => []
  | [l] => l
  | l :: l' :: ls => l ++ '\n' :: joinLines (l' :: ls)

/-- The whitespace class trimmed by JavaScript `trim()`, restricted to the
ASCII control/space characters that can occur here. -/
def isJsSpace (c : Char) : Bool :=
  c == ' ' || c == '\t' || c == '\n' || c == '\r' || c == '\x0b' || c == '\x0c'

/-- JavaScript `trim()`: drop whitespace from both ends. -/
def trimChars (cs : List Char) : List Char :=
  ((cs.dropWhile isJsSpace).reverse.dropWhile isJsSpace).reverse

/-- `postprocessText` from `src/lib/services/ocr-service.ts` on the character
list: collapse horizontal whitespace runs, fix common OCR errors token-wise,
collapse 3+ line breaks to 2, trim each line, trim the whole text. -/
def postprocessChars (cs : List Char) : List Char :=
  trimChars (joinLines
    ((splitLines (collapseNL (mapTokens fixWord (collapseHoriz cs)))).map trimChars))

/-- `postprocessText` on strings. -/
def postprocessText (s : String) : String := String.mk (postprocessChars s.data)

/-- Two adjacent spaces occur somewhere in the list. -/
def hasDoubleSpace : List Char → Bool
  | c1 :: c2 :: rest => (c1 == ' ' && c2 == ' ') || hasDoubleSpace (c2 :: rest)
  | _ => false

/-- The list starts with a space. -/
def headSpace : List Char → Bool
  | c :: _ => c == ' '
  | [] => false

/-- Three adjacent newlines occur somewhere in the list. -/
def hasTripleNL : List Char → Bool
  | c1 :: c2 :: c3 :: rest => (c1 == '\n' && c2 == '\n' && c3 == '\n') || hasTripleNL (c2 :: c3 :: rest)
  | _ => false

theorem map_replace_of_not_mem (t : List Char) (a b : Char) (h : a ∉ t) :
    t.map (fun c => if c = a then b else c) = t := by
  induction t with
  | nil => rfl
  | cons c cs ih =>
    simp only [List.mem_cons, not_or] at h
    have hca : ¬ (c = a) := fun hc => h.1 hc.symm
    simp [List.map_cons, hca, ih h.2]

theorem any_alpha_map_replace (t : List Char) (a b : Char) (ha : a.isAlpha = false)
    (h : t.any (fun c => c.isAlpha) = true) :
    (t.map (fun c => if c = a then b else c)).any (fun c => c.isAlpha) = true := by
  induction t with
  | nil => simp at h
  | cons c cs ih =>
    simp only [List.any_cons, Bool.or_eq_true] at h
    rcases h with h | h
    · have hca : ¬ (c = a) := fun heq => by rw [heq] at h; rw [h] at ha; cases ha
      simp [List.map_cons, List.any_cons, hca, h]
    · simp [List.map_cons, List.any_cons, ih h]

theorem fixWordStep_eq_map (t : List Char) (a b : Char) (ha : a.isAlpha = false)
    (hany : t.any (fun c => c.isAlpha) = true) :
    fixWordStep t (a, b) = t.map (fun c => if c = a then b else c) ∧
      (t.map (fun c => if c = a then b else c)).any (fun c => c.isAlpha) = true := by
  refine ⟨?_, any_alpha_map_replace t a b ha hany⟩
  rw [fixWordStep]
  by_cases hc : t.contains a = true
  · simp [hc, hany]
    intro hnm
    rw [map_replace_of_not_mem t a b hnm]
  · have hb : t.contains a = false := by simpa using hc
    have hnm : a ∉ t := fun hm => hc (List.elem_iff.mpr hm)
    simp [hb, map_replace_of_not_mem t a b hnm]

theorem replace_chain_eq_substOCRChar (c : Char) :
    (fun x => if x = '8' then 'B' else x)
      ((fun x => if x = '5' then 'S' else x)
        ((fun x => if x = '1' then 'l' else x)
          ((fun x => if x = '0' then 'O' else x) c))) = substOCRChar c := by
  by_cases h0 : c = '0'
  · subst h0; decide
  by_cases h1 : c = '1'
  · subst h1; decide
  by_cases h5 : c = '5'
  · subst h5; decide
  by_cases h8 : c = '8'
  · subst h8; decide
  simp [substOCRChar, h0, h1, h5, h8]

theorem fixWord_eq_fixWordSpec (tok : List Char) : fixWord tok = fixWordSpec tok := by
  by_cases h : tok.any (fun c => c.isAlpha) = true
  · obtain ⟨e0, a0⟩ := fixWordStep_eq_map tok '0' 'O' (by decide) h
    obtain ⟨e1, a1⟩ := fixWordStep_eq_map _ '1' 'l' (by decide) a0
    obtain ⟨e5, a5⟩ := fixWordStep_eq_map _ '5' 'S' (by decide) a1
    obtain ⟨e8, _⟩ := fixWordStep_eq_map _ '8' 'B' (by decide) a5
    rw [fixWord, substPairs]
    simp only [List.foldl_cons, List.foldl_nil]
    rw [e0, e1, e5, e8, fixWordSpec, if_pos h]
    simp only [List.map_map]
    apply List.map_congr_left
    intro c _
    simpa [Function.comp] using replace_chain_eq_substOCRChar c
  · have h' : tok.any (fun c => c.isAlpha) = false := by simpa using h
    rw [fixWordSpec, if_neg (by simp [h'])]
    simp [fixWord, substPairs, fixWordStep, h']

theorem hasDoubleSpace_cons (c : Char) (l : List Char) :
    hasDoubleSpace (c :: l) = ((c == ' ' && headSpace l) || hasDoubleSpace l) := by
  cases l with
  | nil => simp [hasDoubleSpace, headSpace]
  | cons c2 rest => simp [hasDoubleSpace, headSpace]

theorem collapseHorizGo_no_double (cs : List Char) :
    ∀ prevWs : Bool,
      hasDoubleSpace (collapseHorizGo prevWs cs) = false ∧
      (prevWs = true → headSpace (collapseHorizGo prevWs cs) = false) := by
  induction cs with
  | nil => intro prev; exact ⟨rfl, fun _ => rfl⟩
  | cons c cs ih =>
    intro prev
    by_cases hc : isHoriz c = true
    · cases prev
      · have h1 := (ih true).1
        have h2 := (ih true).2 rfl
        refine ⟨?_, fun h => by cases h⟩
        simp only [collapseHorizGo, hc, if_true, Bool.false_eq_true, if_false]
        rw [hasDoubleSpace_cons, h1, h2]
        simp
      · have h1 := (ih true).1
        have h2 := (ih true).2 rfl
        constructor
        · simpa only [collapseHorizGo, hc, if_true] using h1
        · intro _
          simpa only [collapseHorizGo, hc, if_true] using h2
    · have hcb : isHoriz c = false := by simpa using hc
      have hcs : (c == ' ') = false := by
        rcases hsp : (c == ' ') with _ | _
        · rfl
        · exact absurd (by simp [isHoriz, hsp]) hc
      have h1 := (ih false).1
      constructor
      · simp only [collapseHorizGo, hcb, Bool.false_eq_true, if_false]
        rw [hasDoubleSpace_cons, h1, hcs]
        simp
      · intro _
        simp only [collapseHorizGo, hcb, Bool.false_eq_true, if_false]
        simp [headSpace, hcs]

theorem collapseHorizGo_no_tab (cs : List Char) :
    ∀ prevWs : Bool, '\t' ∉ collapseHorizGo prevWs cs := by
  induction cs with
  | nil => intro prev; simp [collapseHorizGo]
  | cons c cs ih =>
    intro prev
    by_cases hc : isHoriz c = true
    · cases prev
      · simp only [collapseHorizGo, hc, if_true, Bool.false_eq_true, if_false]
        intro hmem
        rcases List.mem_cons.mp hmem with h | h
        · cases h
        · exact ih true h
      · simpa only [collapseHorizGo, hc, if_true] using ih true
    · have hcb : isHoriz c = false := by simpa using hc
      have hct : ('\t' : Char) ≠ c := fun h => hc (by simp [isHoriz, h.symm])
      simp only [collapseHorizGo, hcb, Bool.false_eq_true, if_false]
      intro hmem
      rcases List.mem_cons.mp hmem with h | h
      · exact hct h
      · exact ih false h

theorem hasTripleNL_cons_not_nl (c : Char) (l : List Char) (hc : (c == '\n') = false) :
    hasTripleNL (c :: l) = hasTripleNL l := by
  rcases l with _ | ⟨x, _ | ⟨y, r⟩⟩
  · rfl
  · rfl
  · simp [hasTripleNL, hc]

theorem hasTripleNL_cons_cons (d c : Char) (l : List Char) (hc : (c == '\n') = false) :
    hasTripleNL (d :: c :: l) = hasTripleNL (c :: l) := by
  rcases l with _ | ⟨e, r⟩
  · simp [hasTripleNL]
  · simp [hasTripleNL, hc]

theorem emitNLRun_no_triple (n : Nat) : hasTripleNL (emitNLRun n) = false := by
  rw [emitNLRun]
  by_cases h : 3 ≤ n
  · rw [if_pos h]; rfl
  · rw [if_neg h]
    rcases n with _ | _ | _ | m
    · rfl
    · rfl
    · rfl
    · omega

theorem hasTripleNL_emit_append (n : Nat) (c : Char) (l : List Char)
    (hc : (c == '\n') = false) :
    hasTripleNL (emitNLRun n ++ c :: l) = hasTripleNL l := by
  rw [emitNLRun]
  by_cases h : 3 ≤ n
  · rw [if_pos h]
    show hasTripleNL ('\n' :: '\n' :: c :: l) = hasTripleNL l
    rw [show hasTripleNL ('\n' :: '\n' :: c :: l) =
        ((('\n' : Char) == '\n' && ('\n' : Char) == '\n' && c == '\n') ||
          hasTripleNL ('\n' :: c :: l)) from rfl]
    rw [hc, hasTripleNL_cons_cons _ _ _ hc, hasTripleNL_cons_not_nl _ _ hc]
    simp
  · rw [if_neg h]
    rcases n with _ | _ | _ | m
    · simpa using hasTripleNL_cons_not_nl c l hc
    · show hasTripleNL ('\n' :: c :: l) = hasTripleNL l
      rw [hasTripleNL_cons_cons _ _ _ hc, hasTripleNL_cons_not_nl _ _ hc]
    · show hasTripleNL ('\n' :: '\n' :: c :: l) = hasTripleNL l
      rw [show hasTripleNL ('\n' :: '\n' :: c :: l) =
          ((('\n' : Char) == '\n' && ('\n' : Char) == '\n' && c == '\n') ||
            hasTripleNL ('\n' :: c :: l)) from rfl]
      rw [hc, hasTripleNL_cons_cons _ _ _ hc, hasTripleNL_cons_not_nl _ _ hc]
      simp
    · omega

theorem collapseNLGo_no_triple (cs : List Char) :
    ∀ run : Nat, hasTripleNL (collapseNLGo run cs) = false := by
  induction cs with
  | nil => intro run; exact emitNLRun_no_triple run
  | cons c cs ih =>
    intro run
    by_cases hc : c = '\n'
    · subst hc
      simp only [collapseNLGo, if_pos rfl]
      exact ih (run + 1)
    · have hcb : (c == '\n') = false := by simp [hc]
      rw [collapseNLGo, if_neg hc, hasTripleNL_emit_append run c _ hcb]
      exact ih 0

theorem dropWhile_head_false (p : Char → Bool) (l : List Char) :
    ∀ c, (l.dropWhile p).head? = some c → p c = false := by
  induction l with
  | nil => intro c h; cases h
  | cons x xs ih =>
    intro c h
    rw [List.dropWhile_cons] at h
    by_cases hx : p x = true
    · rw [if_pos hx] at h
      exact ih c h
    · rw [if_neg hx] at h
      simp only [List.head?_cons, Option.some.injEq] at h
      subst h
      simpa using hx

theorem dropWhile_eq_self_of_head (p : Char → Bool) (l : List Char)
    (h : ∀ c, l.head? = some c → p c = false) : l.dropWhile p = l := by
  cases l with
  | nil => rfl
  | cons c cs => rw [List.dropWhile_cons, if_neg (by simp [h c rfl])]

theorem dropWhile_idem (p : Char → Bool) (l : List Char) :
    List.dropWhile p (List.dropWhile p l) = List.dropWhile p l := by
  induction l with
  | nil => rfl
  | cons c cs ih =>
    rw [List.dropWhile_cons]
    by_cases h : p c = true
    · simp [h, ih]
    · simp [h, List.dropWhile_cons]

theorem trimChars_idem (cs : List Char) : trimChars (trimChars cs) = trimChars cs := by
  rw [trimChars, trimChars]
  have hBrev : ((cs.dropWhile isJsSpace).reverse.dropWhile isJsSpace).reverse.dropWhile isJsSpace
      = ((cs.dropWhile isJsSpace).reverse.dropWhile isJsSpace).reverse := by
    apply dropWhile_eq_self_of_head
    intro c hc
    have hA : cs.dropWhile isJsSpace =
        ((cs.dropWhile isJsSpace).reverse.dropWhile isJsSpace).reverse ++
          ((cs.dropWhile isJsSpace).reverse.takeWhile isJsSpace).reverse := by
      rw [← List.reverse_append, List.takeWhile_append_dropWhile, List.reverse_reverse]
    have hhead : (cs.dropWhile isJsSpace).head? = some c := by
      rcases hB : ((cs.dropWhile isJsSpace).reverse.dropWhile isJsSpace).reverse with _ | ⟨c0, t⟩
      · rw [hB] at hc
        cases hc
      · rw [hB] at hc
        simp only [List.head?_cons, Option.some.injEq] at hc
        subst hc
        rw [hA, hB]
        simp
    exact dropWhile_head_false isJsSpace cs c hhead
  rw [hBrev, List.reverse_reverse, dropWhile_idem]

/-- C8: `postprocessText` behaves as specified stage by stage: the token
corrections apply the substitutions `0→O, 1→l, 5→S, 8→B` exactly in tokens
containing at least one ASCII letter and leave letterless (in particular
all-digit) tokens unchanged; the whitespace stage leaves no tabs and no two
adjacent spaces; the line-break stage leaves no three consecutive newlines;
the final output is trimmed; and the spec's two concrete examples hold
(4 consecutive newlines collapse to exactly 2, and `"  a   b  "` becomes
`"a b"`). -/
theorem postprocessText_stage_behaviour :
    (∀ tok : List Char, fixWord tok = fixWordSpec tok) ∧
    (∀ tok : List Char, tok.any (fun c => c.isAlpha) = false → fixWord tok = tok) ∧
    (∀ cs : List Char, hasDoubleSpace (collapseHoriz cs) = false ∧ '\t' ∉ collapseHoriz cs) ∧
    (∀ cs : List Char, hasTripleNL (collapseNL cs) = false) ∧
    (∀ s : String, trimChars (postprocessChars s.data) = postprocessChars s.data) ∧
    postprocessText "a\n\n\n\nb" = "a\n\nb" ∧
    postprocessText "  a   b  " = "a b" := by
  refine ⟨fixWord_eq_fixWordSpec, ?_, ?_, ?_, ?_, by decide, by decide⟩
  · intro tok h
    simp [fixWord, substPairs, fixWordStep, h]
  · intro cs
    exact ⟨(collapseHorizGo_no_double cs false).1, collapseHorizGo_no_tab cs false⟩
  · intro cs
    exact collapseNLGo_no_triple cs 0
  · intro s
    exact trimChars_idem _

/-- Witness for C8 at concrete tokens: the all-digit token `100` is unchanged
and the letter-bearing token `B10` follows the substitution rule. -/
theorem postprocessText_stage_behaviour_witness :
    ((['1', '0', '0'] : List Char).any (fun c => c.isAlpha) = false) ∧
    fixWord ['1', '0', '0'] = ['1', '0', '0'] ∧
    fixWord ['B', '1', '0'] = fixWordSpec ['B', '1', '0'] :=
  ⟨by decide, postprocessText_stage_behaviour.2.1 ['1', '0', '0'] (by decide),
    postprocessText_stage_behaviour.1 ['B', '1', '0']⟩

/-- The audio formats accepted by the media converter
(`"mp3" | "wav" | "ogg" | "aac" | "flac" | "m4a"`). -/
inductive AudioFormat where
  | mp3 | wav | ogg | aac | flac | m4a
deriving DecidableEq, Repr

/-- The video formats accepted by `convertVideo`. -/
inductive VideoFormat where
  | mp4 | webm | avi | mov | mkv | flv
deriving DecidableEq, Repr

/-- `targetFormat.toUpperCase()` for audio formats. -/
def AudioFormat.upper : AudioFormat → String
  | .mp3 => "MP3" | .wav => "WAV" | .ogg => "OGG"
  | .aac => "AAC" | .flac => "FLAC" | .m4a => "M4A"

/-- The `mimeTypes` record of `extractAudioFromVideo`. -/
def audioMime : AudioFormat → String
  | .mp3 => "audio/mpeg" | .wav => "audio/wav" | .ogg => "audio/ogg"
  | .aac => "audio/aac" | .flac => "audio/flac" | .m4a => "audio/mp4"

/-- The `mimeTypes` record of `convertVideo`. -/
def videoMime : VideoFormat → String
  | .mp4 => "video/mp4" | .webm => "video/webm" | .avi => "video/x-msvideo"
  | .mov => "video/quicktime" | .mkv => "video/x-matroska" | .flv => "video/x-flv"

/-- Observable steps of a media conversion call.  `ffmpegLoadAttempt` and
`ffmpegExec` are the WebAssembly-transcoder path; `audioDecode` and
`recorderStart` are the native browser codec path. -/
inductive MediaEvent where
  | audioDecode
  | recorderStart
  | ffmpegLoadAttempt
  | ffmpegExec
deriving DecidableEq, Repr

/-- The events belonging to the WebAssembly transcoder path. -/
def isTranscoderEvent : MediaEvent → Bool
  | .ffmpegLoadAttempt => true
  | .ffmpegExec => true
  | _ => false

/-- The module-level transcoder singleton of `media-converter.ts`
(`ffmpegInstance`, `ffmpegLoaded`). -/
structure FFState where
  instanceCreated : Bool
  loaded : Bool
deriving DecidableEq, Repr

/-- The environment a media conversion runs in: whether the execution context
is cross-origin isolated (`typeof SharedArrayBuffer !== "undefined"`), and the
outcomes of the opaque library calls (transcoder load, transcoder invocation,
native audio decode, MediaRecorder MP3 support/encode). -/
structure MediaEnv where
  sharedArrayBufferAvailable : Bool
  loadOk : Bool
  execResult : Except String Unit
  audioDecodeOk : Bool
  decodeErrMessage : String
  recorderMp3Supported : Bool
  recorderOk : Bool
deriving DecidableEq, Repr

/-- The error thrown by `getFFmpeg` when `SharedArrayBuffer` is undefined. -/
def sabUnavailableMessage : String :=
  "SharedArrayBuffer is not available. FFmpeg.wasm requires cross-origin isolation. " ++
    "This is automatically enabled in production deployments."

/-- The error thrown by `getFFmpeg` when `ffmpeg.load()` fails. -/
def ffmpegLoadFailMessage : String :=
  "Failed to load FFmpeg.wasm. This feature requires cross-origin isolation and works automatically in production."

/-- `getFFmpeg` from `src/lib/converters/media-converter.ts`: reuse a loaded
instance; otherwise create the instance, fail before any load attempt when
`SharedArrayBuffer` is unavailable, then attempt the load once. -/
def getFFmpeg (env : MediaEnv) (st : FFState) :
    Except String Unit × FFState × List MediaEvent :=
  if st.instanceCreated ∧ st.loaded then (.ok (), st, [])
  else if st.loaded then (.ok (), ⟨true, st.loaded⟩, [])
  else if env.sharedArrayBufferAvailable = false then
    (.error sabUnavailableMessage, ⟨true, st.loaded⟩, [])
  else if env.loadOk then (.ok (), ⟨true, true⟩, [.ffmpegLoadAttempt])
  else (.error ffmpegLoadFailMessage, ⟨true, st.loaded⟩, [.ffmpegLoadAttempt])

/-- The WAV blob produced by `audioBufferToWav` (content symbolic). -/
def wavBlob : Blob := ⟨"pcm16-wav", "audio/wav"⟩

/-- The MP3 blob produced by `audioBufferToMp3`'s MediaRecorder path. -/
def mp3Blob : Blob := ⟨"recorded-mp3", "audio/mpeg"⟩

/-- The transcoder's audio output blob for `extractAudioFromVideo`. -/
def ffmpegAudioBlob (t : AudioFormat) : Blob := ⟨"ffmpeg-audio", audioMime t⟩

/-- The transcoder's video output blob for `convertVideo`. -/
def ffmpegVideoBlob (t : VideoFormat) : Blob := ⟨"ffmpeg-video", videoMime t⟩

/-- `audioBufferToMp3` from `media-converter.ts`: silently substitute WAV when
the platform does not support `audio/mpeg` recording, otherwise record MP3 (or
fail if the recorder errors). -/
def audioBufferToMp3 (env : MediaEnv) : Except String Blob × List MediaEvent :=
  if env.recorderMp3Supported = false then (.ok wavBlob, [])
  else if env.recorderOk then (.ok mp3Blob, [.recorderStart])
  else (.error "Failed to encode MP3 using MediaRecorder", [.recorderStart])

/-- `convertAudio` from `media-converter.ts` (the dispatcher passes any of the
six audio formats through `targetFormat as any`): decode natively, then encode
WAV, or MP3 via the recorder, or — for every other requested format — WAV
again (the silent substitution of the final `else`).  There is no transcoder
involvement anywhere in this function. -/
def convertAudio (env : MediaEnv) (targetFormat : AudioFormat) :
    Except String Blob × List MediaEvent :=
  if env.audioDecodeOk = false then (.error env.decodeErrMessage, [.audioDecode])
  else if targetFormat = .wav then (.ok wavBlob, [.audioDecode])
  else if targetFormat = .mp3 then
    ((audioBufferToMp3 env).1, .audioDecode :: (audioBufferToMp3 env).2)
  else (.ok wavBlob, [.audioDecode])

/-- `extractAudioWithBrowserAPI` from `media-converter.ts`: native decode, then
MP3 via recorder or WAV directly; any other format raises the
"requires FFmpeg.wasm" error. -/
def extractAudioWithBrowserAPI (env : MediaEnv) (targetFormat : AudioFormat) :
    Except String Blob × List MediaEvent :=
  if env.audioDecodeOk = false then (.error env.decodeErrMessage, [.audioDecode])
  else if targetFormat = .mp3 then
    ((audioBufferToMp3 env).1, .audioDecode :: (audioBufferToMp3 env).2)
  else if targetFormat = .wav then (.ok wavBlob, [.audioDecode])
  else
    (.error (targetFormat.upper ++ " format requires FFmpeg.wasm in production. Try MP3 or WAV format instead."),
      [.audioDecode])

/-- The error of `extractAudioFromVideo`'s catch block for targets with no
browser fallback. -/
def extractAudioRecommendMessage (t : AudioFormat) : String :=
  t.upper ++ " conversion requires FFmpeg.wasm in production. " ++
    "Try converting to MP3 or WAV format instead, which work in all environments."

/-- The result of `extractAudioFromVideo`'s browser fallback for mp3/wav
targets, with the catch block's wrapping of a fallback failure. -/
def browserFallbackResult (env : MediaEnv) (t : AudioFormat) : Except String Blob :=
  match (extractAudioWithBrowserAPI env t).1 with
  | .ok b => .ok b
  | .error fe => .error ("Unable to convert video to " ++ t.upper ++ ". " ++ fe)

/-- The catch block of `extractAudioFromVideo`: browser fallback for mp3/wav,
the recommendation error otherwise. -/
def extractAudioCatch (env : MediaEnv) (targetFormat : AudioFormat)
    (st : FFState) (evs : List MediaEvent) :
    Except String Blob × FFState × List MediaEvent :=
  if targetFormat = .mp3 ∨ targetFormat = .wav then
    (browserFallbackResult env targetFormat, st,
      evs ++ (extractAudioWithBrowserAPI env targetFormat).2)
  else (.error (extractAudioRecommendMessage targetFormat), st, evs)

/-- `extractAudioFromVideo` from `media-converter.ts`: transcoder first
(load + invoke), with the catch block above on any failure. -/
def extractAudioFromVideo (env : MediaEnv) (st : FFState) (_file : JsFile)
    (targetFormat : AudioFormat) : Except String Blob × FFState × List MediaEvent :=
  match getFFmpeg env st with
  | (.error _, st1, evs) => extractAudioCatch env targetFormat st1 evs
  | (.ok _, st1, evs) =>
    match env.execResult with
    | .ok _ => (.ok (ffmpegAudioBlob targetFormat), st1, evs ++ [.ffmpegExec])
    | .error _ => extractAudioCatch env targetFormat st1 (evs ++ [.ffmpegExec])

/-- `convertVideo` from `media-converter.ts`: transcoder only; any error is
re-thrown as `Failed to convert video: <message>`. -/
def convertVideo (env : MediaEnv) (st : FFState) (_file : JsFile)
    (targetFormat : VideoFormat) : Except String Blob × FFState × List MediaEvent :=
  match getFFmpeg env st with
  | (.error e, st1, evs) => (.error ("Failed to convert video: " ++ e), st1, evs)
  | (.ok _, st1, evs) =>
    match env.execResult with
    | .ok _ => (.ok (ffmpegVideoBlob targetFormat), st1, evs ++ [.ffmpegExec])
    | .error e => (.error ("Failed to convert video: " ++ e), st1, evs ++ [.ffmpegExec])

/-- `needle` is a prefix of `hay` (character lists). -/
def leadsWith : List Char → List Char → Bool
  | [], _ => true
  | _ :: _, [] => false
  | a :: as, b :: bs => a == b && leadsWith as bs

/-- `needle` occurs contiguously somewhere in `hay`. -/
def occursIn (needle : List Char) : List Char → Bool
  | [] => needle.isEmpty
  | c :: cs => leadsWith needle (c :: cs) || occursIn needle cs

/-- Substring test on strings. -/
def strOccursIn (needle hay : String) : Bool := occursIn needle.data hay.data

/-- The fresh (nothing created, nothing loaded) transcoder singleton state. -/
def ffInit : FFState := ⟨false, false⟩

/-- An environment without cross-origin isolation but with a fully working
native browser audio path. -/
def noSabEnv : MediaEnv :=
  { sharedArrayBufferAvailable := false
    loadOk := true
    execResult := .ok ()
    audioDecodeOk := true
    decodeErrMessage := "decode failed"
    recorderMp3Supported := true
    recorderOk := true }

/-- An environment whose native audio decode fails. -/
def decodeFailEnv : MediaEnv :=
  { noSabEnv with sharedArrayBufferAvailable := true, audioDecodeOk := false }

/-- Counterexample to C5 as stated: an audio-to-audio conversion (mp3 target)
whose native path fails produces a terminal error with zero transcoder events
— not "exactly one fallback attempt through the WebAssembly transcoder". -/
theorem convertAudio_no_transcoder_fallback_cex :
    (convertAudio decodeFailEnv .mp3).1 = .error "decode failed" ∧
    (convertAudio decodeFailEnv .mp3).2 = [.audioDecode] ∧
    ((convertAudio decodeFailEnv .mp3).2.countP (fun e => isTranscoderEvent e)) = 0 := by
  decide

/-- C5 (amended): `convertAudio` never touches the WebAssembly transcoder at
all — every audio-to-audio conversion performs zero transcoder steps — and
when the native decode fails the conversion fails terminally with that error
and no fallback of any kind. -/
theorem convertAudio_native_only :
    (∀ (env : MediaEnv) (tgt : AudioFormat),
      ((convertAudio env tgt).2.countP (fun e => isTranscoderEvent e)) = 0) ∧
    (∀ (env : MediaEnv) (tgt : AudioFormat), env.audioDecodeOk = false →
      (convertAudio env tgt).1 = .error env.decodeErrMessage ∧
      (convertAudio env tgt).2 = [.audioDecode]) := by
  constructor
  · intro env tgt
    rw [convertAudio]
    by_cases hd : env.audioDecodeOk = false
    · simp [hd, isTranscoderEvent]
    · rw [audioBufferToMp3]
      by_cases hr : env.recorderMp3Supported = false <;>
        by_cases hk : env.recorderOk = true <;>
          split_ifs <;> simp_all [isTranscoderEvent]
  · intro env tgt hdec
    simp [convertAudio, hdec]

/-- Witness for C5 (amended): the mp3 conversion in `decodeFailEnv`. -/
theorem convertAudio_native_only_witness :
    ((convertAudio decodeFailEnv .wav).2.countP (fun e => isTranscoderEvent e)) = 0 ∧
    decodeFailEnv.audioDecodeOk = false ∧
    (convertAudio decodeFailEnv .wav).1 = .error decodeFailEnv.decodeErrMessage :=
  ⟨convertAudio_native_only.1 decodeFailEnv .wav, by decide,
    (convertAudio_native_only.2 decodeFailEnv .wav (by decide)).1⟩

theorem getFFmpeg_no_sab (env : MediaEnv) (st : FFState)
    (hsab : env.sharedArrayBufferAvailable = false) (hld : st.loaded = false) :
    getFFmpeg env st = (.error sabUnavailableMessage, ⟨true, false⟩, []) := by
  simp [getFFmpeg, hsab, hld]

theorem extractAudioWithBrowserAPI_no_transcoder (env : MediaEnv) (t : AudioFormat) :
    ((extractAudioWithBrowserAPI env t).2.countP (fun e => isTranscoderEvent e)) = 0 := by
  rw [extractAudioWithBrowserAPI]
  by_cases hd : env.audioDecodeOk = false
  · simp [hd, isTranscoderEvent]
  · rw [audioBufferToMp3]
    by_cases hr : env.recorderMp3Supported = false <;>
      by_cases hk : env.recorderOk = true <;>
        split_ifs <;> simp_all [isTranscoderEvent]

/-- Counterexample to C6 as stated: without cross-origin isolation, the
mp4 → ogg audio extraction (a conversion that needs the transcoder) fails with
an error that does not mention the isolation requirement at all, and the
mp4 → mp3 extraction does not fail — it succeeds through the native browser
fallback with the transcoder never loaded. -/
theorem transcoder_unavailable_cex :
    (extractAudioFromVideo noSabEnv ffInit ⟨"clip.mp4"⟩ .ogg).1 =
      .error (extractAudioRecommendMessage .ogg) ∧
    strOccursIn "isolation" (extractAudioRecommendMessage .ogg) = false ∧
    (extractAudioFromVideo noSabEnv ffInit ⟨"clip.mp4"⟩ .mp3).1 = .ok mp3Blob ∧
    ((extractAudioFromVideo noSabEnv ffInit ⟨"clip.mp4"⟩ .mp3).2.1).loaded = false := by
  decide

/-- C6 (amended): when the execution context is not cross-origin isolated and
the transcoder is not yet loaded, the transcoder is never loaded and never
executed, and no transcoder output is produced.  `convertVideo` fails
immediately with an error mentioning the isolation requirement.
`extractAudioFromVideo` fails with an error recommending MP3/WAV (which does
not mention isolation) for ogg/aac/flac/m4a targets, and falls back to the
native browser path for mp3/wav targets. -/
theorem transcoder_unavailable_behaviour (env : MediaEnv) (st : FFState) (file : JsFile)
    (hsab : env.sharedArrayBufferAvailable = false) (hld : st.loaded = false) :
    (∀ vt : VideoFormat,
      (convertVideo env st file vt).1 =
        .error ("Failed to convert video: " ++ sabUnavailableMessage) ∧
      ((convertVideo env st file vt).2.1).loaded = false ∧
      (convertVideo env st file vt).2.2 = []) ∧
    strOccursIn "cross-origin isolation"
      ("Failed to convert video: " ++ sabUnavailableMessage) = true ∧
    (∀ t : AudioFormat,
      ((extractAudioFromVideo env st file t).2.1).loaded = false ∧
      ((extractAudioFromVideo env st file t).2.2.countP (fun e => isTranscoderEvent e)) = 0 ∧
      (t ≠ .mp3 ∧ t ≠ .wav →
        extractAudioFromVideo env st file t =
          (.error (extractAudioRecommendMessage t), ⟨true, false⟩, [])) ∧
      ((t = .mp3 ∨ t = .wav) →
        (extractAudioFromVideo env st file t).1 = browserFallbackResult env t)) := by
  have hget := getFFmpeg_no_sab env st hsab hld
  refine ⟨?_, by decide, ?_⟩
  · intro vt
    simp [convertVideo, hget]
  · intro t
    simp only [extractAudioFromVideo, hget]
    by_cases hmw : t = .mp3 ∨ t = .wav
    · rw [extractAudioCatch, if_pos hmw]
      refine ⟨rfl, ?_, ?_, fun _ => rfl⟩
      · simpa using extractAudioWithBrowserAPI_no_transcoder env t
      · rintro ⟨h1, h2⟩
        rcases hmw with h | h
        · exact absurd h h1
        · exact absurd h h2
    · rw [extractAudioCatch, if_neg hmw]
      exact ⟨rfl, by simp, fun _ => rfl, fun h => absurd h hmw⟩

/-- Witness for C6 (amended) in `noSabEnv` with a fresh singleton state. -/
theorem transcoder_unavailable_behaviour_witness :
    noSabEnv.sharedArrayBufferAvailable = false ∧
    (convertVideo noSabEnv ffInit ⟨"clip.mp4"⟩ .mp4).1 =
      .error ("Failed to convert video: " ++ sabUnavailableMessage) ∧
    extractAudioFromVideo noSabEnv ffInit ⟨"clip.mp4"⟩ .aac =
      (.error (extractAudioRecommendMessage .aac), ⟨true, false⟩, []) :=
  ⟨by decide,
    ((transcoder_unavailable_behaviour noSabEnv ffInit ⟨"clip.mp4"⟩ (by decide) (by decide)).1 .mp4).1,
    ((transcoder_unavailable_behaviour noSabEnv ffInit ⟨"clip.mp4"⟩ (by decide)
      (by decide)).2.2 .aac).2.2.1 (by decide)⟩
